import Mathlib

/-
Verification of the scan2pdf backend (src/backend/app.py), a Flask service
with a single OCR endpoint.  The Python source is shallowly embedded below:

  * the word/line assembly loop of extract_text (lines 204 to 227) becomes
    buildAux / buildLines; the OCR data dict of parallel arrays is
    represented as a list of OcrWord records (one record per index i);
  * the junk-line filter (lines 229 to 236) becomes cleanLines;
  * allowed_file (lines 27 to 29) becomes allowed_file;
  * the request-level control flow of extract_text becomes the pure
    function extract_text over an OcrEnv describing the request and the
    behaviour of the external world (file system, OpenCV, Tesseract),
    with an Effects record tracking the externally visible actions;
  * the /health handler (lines 96 to 118) becomes health.

Python str.strip is modelled by pyStrip over the Python whitespace set;
int(<str>) is modelled by parseIntStr (surrounding whitespace, optional
sign, decimal digits); str.lower by pyLower via Char.toLower, which agrees
with Python on every string whose lowering is relevant to membership in
the ASCII-lowercase extension set.
-/

namespace Scan2PDF

/-- Code points c for which Python str.isspace holds (the set stripped by
str.strip and matched by the regex class backslash-s). -/
def isPySpace (c : Char) : Bool :=
  [9, 10, 11, 12, 13, 28, 29, 30, 31, 32, 133, 160, 5760,
   8192, 8193, 8194, 8195, 8196, 8197, 8198, 8199, 8200, 8201, 8202,
   8232, 8233, 8239, 8287, 12288].contains c.toNat

/-- Drop leading and trailing Python whitespace from a character list. -/
def stripList (l : List Char) : List Char :=
  ((l.dropWhile isPySpace).reverse.dropWhile isPySpace).reverse

/-- Python str.strip(). -/
def pyStrip (s : String) : String :=
  ⟨stripList s.data⟩

/-- Decimal digit run to a natural number; none if empty or not all digits. -/
def digitsToNat (l : List Char) : Option Nat :=
  if !l.isEmpty && l.all Char.isDigit then
    some (l.foldl (fun acc c => acc * 10 + (c.toNat - 48)) 0)
  else none

/-- Python int(s) for a string argument: surrounding whitespace is ignored,
then an optional sign followed by decimal digits; none models ValueError. -/
def parseIntStr (s : String) : Option Int :=
  match (pyStrip s).data with
  | [] => none
  | '+' :: ds => (digitsToNat ds).map (fun n => (n : Int))
  | '-' :: ds => (digitsToNat ds).map (fun n => -(n : Int))
  | ds => (digitsToNat ds).map (fun n => (n : Int))

/-- One index of the OCR data dict: the parallel arrays text, conf and
line_num of pytesseract.image_to_data at a common index i. -/
structure OcrWord where
  text : String
  conf : String
  line_num : Int
deriving DecidableEq, Repr

/-- The confidence computed at line 211 of app.py:
int(ocr_data[conf][i]) if ocr_data[conf][i] != -1-as-string else 0.
none models the ValueError raised by int() on a malformed string. -/
def pyConf (w : OcrWord) : Option Int :=
  if w.conf = "-1" then some 0 else parseIntStr w.conf

/-- The append guarded by "if line_text:" in app.py (lines 219 and 226):
flush the pending line text, stripped, unless it is empty. -/
def flushLine (lineText : String) (acc : List String) : List String :=
  if lineText = "" then acc else acc ++ [pyStrip lineText]

/-- The loop of lines 209 to 227 of app.py, with loop state
(current_line_num, line_text, lines).  Except models the exception raised
by int() on a malformed confidence string. -/
def buildAux (cur : Int) (lineText : String) (acc : List String) :
    List OcrWord → Except Unit (List String)
  | [] => .ok (flushLine lineText acc)
  | w :: rest =>
    let word := pyStrip w.text
    match pyConf w with
    | none => .error ()
    | some confidence =>
      if word = "" ∨ confidence < 30 then
        buildAux cur lineText acc rest
      else if w.line_num ≠ cur then
        buildAux w.line_num word (flushLine lineText acc) rest
      else
        buildAux cur (lineText ++ " " ++ word) acc rest

/-- Lines 204 to 227 of app.py: current_line_num starts at -1, line_text
empty, lines empty. -/
def buildLines (ws : List OcrWord) : Except Unit (List String) :=
  buildAux (-1) "" [] ws

/-- Whether a word survives the skip test of lines 210 to 215 of app.py. -/
def keptB (w : OcrWord) : Bool :=
  match pyConf w with
  | none => false
  | some confidence => if pyStrip w.text = "" ∨ confidence < 30 then false else true

/-- The kept words, in index order, as (stripped text, line_num) pairs. -/
def keptWords (ws : List OcrWord) : List (String × Int) :=
  ws.filterMap (fun w => if keptB w then some (pyStrip w.text, w.line_num) else none)

/-- Every confidence string in the data parses (no ValueError in the loop). -/
def allConfParse (ws : List OcrWord) : Bool :=
  ws.all (fun w => (pyConf w).isSome)

/-- Words of one line joined by single spaces. -/
def joinSpace : List String → String
  | [] => ""
  | [w] => w
  | w :: x :: rest => w ++ " " ++ joinSpace (x :: rest)

/-- Spec-side grouping (from the claim wording): a kept word starts a new
line exactly when its line_num differs from the line_num of the previous
kept word.  State: line_num of the previous kept word and current chunk. -/
def specGA (cur : Int) (chunk : List String) : List (String × Int) → List (List String)
  | [] => [chunk]
  | (w, n) :: rest =>
    if n = cur then specGA cur (chunk ++ [w]) rest
    else chunk :: specGA n [w] rest

/-- Spec-side grouping of the full kept-word list. -/
def specGroups : List (String × Int) → List (List String)
  | [] => []
  | (w, n) :: rest => specGA n [w] rest

/-- Spec-side line assembly: group, then join each group with spaces. -/
def specLines (ps : List (String × Int)) : List String :=
  (specGroups ps).map joinSpace

/-- Resume spec-side grouping from an intermediate loop state. -/
def specResume (cur : Int) (chunk : List String) (ps : List (String × Int)) :
    List (List String) :=
  match chunk with
  | [] => specGroups ps
  | _ => specGA cur chunk ps

/-- ALLOWED_EXTENSIONS of app.py line 25. -/
def ALLOWED_EXTENSIONS : List String :=
  ["png", "jpg", "jpeg", "gif", "bmp", "tiff", "webp"]

/-- Python str.lower, character by character (ASCII case mapping). -/
def pyLower (s : String) : String :=
  ⟨s.data.map Char.toLower⟩

/-- filename.rsplit(".", 1)[1] when a dot is present: the characters after
the last dot. -/
def extAfterLastDot (s : String) : String :=
  ⟨(s.data.reverse.takeWhile (fun c => c ≠ '.')).reverse⟩

/-- The Python test "." in filename. -/
def hasDot (s : String) : Bool :=
  decide ('.' ∈ s.data)

/-- allowed_file of app.py lines 27 to 29. -/
def allowed_file (filename : String) : Bool :=
  hasDot filename && ALLOWED_EXTENSIONS.contains (pyLower (extAfterLastDot filename))

/-- Characters kept by re.sub stripping every character outside
hex 20 to hex 7E (app.py line 233). -/
def isPrintableAscii (c : Char) : Bool :=
  32 ≤ c.toNat && c.toNat ≤ 126

/-- re.sub removing every non printable-ASCII character from the line. -/
def cleanAscii (s : String) : String :=
  ⟨s.data.filter isPrintableAscii⟩

/-- Python regex word characters, restricted to the ASCII range the
cleaned lines live in: letters, digits and underscore. -/
def isWordCharA (c : Char) : Bool :=
  c.isAlphanum || c = '_'

/-- re.match of a nonempty run of characters that are neither word
characters nor whitespace, anchored at both ends (app.py line 235),
on the all-ASCII strings it is applied to. -/
def onlyPunct (s : String) : Bool :=
  !s.data.isEmpty && s.data.all (fun c => !isWordCharA c && !isPySpace c)

/-- The junk filter of app.py lines 229 to 236: clean each assembled line
to printable ASCII, strip it, and keep it when it is longer than 2 and not
pure punctuation. -/
def cleanLines (ls : List String) : List String :=
  ls.filterMap (fun line =>
    let cleaned := pyStrip (cleanAscii line)
    if 2 < cleaned.length ∧ onlyPunct cleaned = false then some cleaned else none)

/-- The environment an /ocr request runs in: the request fields the handler
reads plus the responses of the external world.  primaryOcr (and, when the
first call raises, fallbackOcr) is the outcome of one pytesseract
image_to_data invocation; none models a raised exception. -/
structure OcrEnv where
  tesseractOk : Bool
  hasFilePart : Bool
  filename : String
  saveOk : Bool
  imageOk : Bool
  primaryOcr : Option (List OcrWord)
  fallbackOcr : Option (List OcrWord)
deriving DecidableEq, Repr

/-- Externally visible actions of one /ocr request: OCR engine invocations,
whether file.save was executed, whether the saved file was removed. -/
structure Effects where
  ocrCalls : Nat
  savedFile : Bool
  removedFile : Bool
deriving DecidableEq, Repr

/-- The JSON body of a successful /ocr response (app.py lines 247 to 252). -/
structure OcrSuccess where
  lines : List String
  total_lines : Nat
  status : String
  message : String
deriving DecidableEq, Repr

/-- An /ocr response: an error JSON with its HTTP status code, or the
success JSON (Flask default status 200). -/
inductive OcrResponse where
  | error (code : Nat) (errMsg : String)
  | success (body : OcrSuccess)
deriving DecidableEq, Repr

/-- HTTP status code of a response. -/
def respStatus : OcrResponse → Nat
  | .error code _ => code
  | .success _ => 200

/-- The success body built at app.py lines 247 to 252. -/
def successBody (cleaned : List String) : OcrSuccess :=
  { lines := cleaned
    total_lines := cleaned.length
    status := "success"
    message := "Successfully extracted " ++ toString cleaned.length ++ " lines of text" }

/-- No external action taken yet. -/
def noEffects : Effects :=
  { ocrCalls := 0, savedFile := false, removedFile := false }

/-- From OCR data onwards in extract_text: assembly loop, junk filter,
cleanup, response.  A ValueError in the loop reaches the generic handler,
which removes the file and returns 500. -/
def finishOcr (ws : List OcrWord) (calls : Nat) : OcrResponse × Effects :=
  match buildLines ws with
  | .error _ =>
    (.error 500 "Processing failed",
     { ocrCalls := calls, savedFile := true, removedFile := true })
  | .ok ls =>
    (.success (successBody (cleanLines ls)),
     { ocrCalls := calls, savedFile := true, removedFile := true })

/-- The /ocr handler extract_text of app.py lines 120 to 281, as a pure
function from the request environment to (response, effects), following
the source control flow in order: Tesseract check, file-part check, empty
filename check, extension check, save, decode, OCR (with the fallback
invocation when the first raises), line assembly, junk filter, cleanup,
success JSON. -/
def extract_text (env : OcrEnv) : OcrResponse × Effects :=
  if env.tesseractOk = false then
    (.error 500 "Tesseract OCR not available on server", noEffects)
  else if env.hasFilePart = false then
    (.error 400 "No file part", noEffects)
  else if env.filename = "" then
    (.error 400 "No file selected", noEffects)
  else if allowed_file env.filename = false then
    (.error 400 "Invalid file type. Allowed: png, jpg, jpeg, gif, bmp, tiff, webp", noEffects)
  else if env.saveOk = false then
    (.error 500 "File save failed",
     { ocrCalls := 0, savedFile := true, removedFile := false })
  else if env.imageOk = false then
    (.error 400 "Invalid image file or corrupted",
     { ocrCalls := 0, savedFile := true, removedFile := true })
  else
    match env.primaryOcr with
    | some ws => finishOcr ws 1
    | none =>
      match env.fallbackOcr with
      | some ws => finishOcr ws 2
      | none =>
        (.error 500 "OCR processing failed: fallback raised",
         { ocrCalls := 2, savedFile := true, removedFile := false })

/-- The request passes every check before the OCR stage. -/
def reachesOcr (env : OcrEnv) : Bool :=
  env.tesseractOk && env.hasFilePart && (env.filename != "") &&
    allowed_file env.filename && env.saveOk && env.imageOk

/-- Environment of a /health request: whether the try block raises, and
whether check_and_configure_tesseract succeeds. -/
structure HealthEnv where
  raisesExc : Bool
  tesseractAvailable : Bool
deriving DecidableEq, Repr

/-- The /health response fields the claims mention. -/
structure HealthResp where
  code : Nat
  status : String
deriving DecidableEq, Repr

/-- The /health handler of app.py lines 96 to 118. -/
def health (e : HealthEnv) : HealthResp :=
  if e.raisesExc then { code := 500, status := "unhealthy" }
  else { code := 200, status := if e.tesseractAvailable then "healthy" else "partial" }

/-- Both ends of a string carry no Python whitespace. -/
def goodEdges (s : String) : Prop :=
  (s.data.head?).all (fun c => !isPySpace c) = true ∧
  (s.data.getLast?).all (fun c => !isPySpace c) = true

/-- Every word of the list is nonempty and stripped at both ends. -/
def goodWords (ws : List String) : Prop :=
  ∀ w ∈ ws, w ≠ "" ∧ goodEdges w

/-- The pending line text is the space-join of the pending chunk of kept
words, with a possible single leading space in the degenerate state where
the first kept word had line_num equal to the initial sentinel -1. -/
def InvState (lineText : String) (chunk : List String) : Prop :=
  (chunk = [] ∧ lineText = "") ∨
  (chunk ≠ [] ∧ goodWords chunk ∧
    (lineText = joinSpace chunk ∨ lineText = " " ++ joinSpace chunk))

/-- A fully successful request environment used by the witnesses. -/
def envHappy : OcrEnv :=
  { tesseractOk := true, hasFilePart := true, filename := "scan.png",
    saveOk := true, imageOk := true,
    primaryOcr := some [⟨"Hello", "90", 1⟩, ⟨"world", "85", 1⟩],
    fallbackOcr := none }

/-! Lemmas about pyStrip. -/

lemma data_eq_nil_iff (s : String) : s.data = [] ↔ s = "" := by
  constructor
  · intro h
    have hs : s = (⟨s.data⟩ : String) := rfl
    rw [hs, h]
  · intro h
    rw [h]

lemma head?_all_dropWhile (p : Char → Bool) (l : List Char) :
    ((l.dropWhile p).head?).all (fun c => !p c) = true := by
  induction l with
  | nil => rfl
  | cons a l ih =>
    rw [List.dropWhile_cons]
    by_cases h : p a
    · simpa [h] using ih
    · simp [h]

lemma getLast?_dropWhile (p : Char → Bool) (l : List Char) :
    l.dropWhile p = [] ∨ (l.dropWhile p).getLast? = l.getLast? := by
  induction l with
  | nil => left; rfl
  | cons a l ih =>
    rw [List.dropWhile_cons]
    by_cases h : p a
    · simp only [h, if_true]
      cases l with
      | nil => left; rfl
      | cons b t =>
        rcases ih with h1 | h1
        · left; exact h1
        · right
          rw [h1, List.getLast?_cons_cons]
    · simp [h]

lemma stripList_getLast?_all (l : List Char) :
    ((stripList l).getLast?).all (fun c => !isPySpace c) = true := by
  unfold stripList
  rw [List.getLast?_reverse]
  exact head?_all_dropWhile _ _

lemma stripList_head?_all (l : List Char) :
    ((stripList l).head?).all (fun c => !isPySpace c) = true := by
  unfold stripList
  rw [List.head?_reverse]
  rcases getLast?_dropWhile isPySpace (l.dropWhile isPySpace).reverse with h | h
  · rw [h]; rfl
  · rw [h, List.getLast?_reverse]
    exact head?_all_dropWhile _ _

lemma dropWhile_eq_self_of_head? (p : Char → Bool) (l : List Char)
    (h : (l.head?).all (fun c => !p c) = true) : l.dropWhile p = l := by
  cases l with
  | nil => rfl
  | cons a t =>
    rw [List.dropWhile_cons]
    have ha : p a = false := by simpa using h
    simp [ha]

lemma stripList_eq_self (l : List Char)
    (h1 : (l.head?).all (fun c => !isPySpace c) = true)
    (h2 : (l.getLast?).all (fun c => !isPySpace c) = true) :
    stripList l = l := by
  unfold stripList
  rw [dropWhile_eq_self_of_head? _ _ h1]
  rw [dropWhile_eq_self_of_head? _ _ (by rw [List.head?_reverse]; exact h2)]
  exact List.reverse_reverse l

lemma goodEdges_pyStrip (s : String) : goodEdges (pyStrip s) :=
  ⟨stripList_head?_all s.data, stripList_getLast?_all s.data⟩

lemma pyStrip_eq_self (s : String) (h : goodEdges s) : pyStrip s = s := by
  show (⟨stripList s.data⟩ : String) = s
  rw [stripList_eq_self s.data h.1 h.2]

lemma pyStrip_idem (s : String) : pyStrip (pyStrip s) = pyStrip s :=
  pyStrip_eq_self _ (goodEdges_pyStrip s)

lemma stripList_space_cons (l : List Char) : stripList (' ' :: l) = stripList l := by
  unfold stripList
  rw [List.dropWhile_cons]
  have h : isPySpace ' ' = true := by decide
  rw [h]
  simp

lemma pyStrip_space_append (s : String) : pyStrip (" " ++ s) = pyStrip s := by
  show (⟨stripList ((" " ++ s).data)⟩ : String) = ⟨stripList s.data⟩
  rw [String.data_append]
  show (⟨stripList (' ' :: s.data)⟩ : String) = ⟨stripList s.data⟩
  rw [stripList_space_cons]

lemma mem_of_mem_dropWhile (p : Char → Bool) (l : List Char) (c : Char)
    (h : c ∈ l.dropWhile p) : c ∈ l := by
  induction l with
  | nil => exact absurd h (List.not_mem_nil c)
  | cons a t ih =>
    rw [List.dropWhile_cons] at h
    by_cases hp : p a
    · simp only [hp, if_true] at h
      exact List.mem_cons_of_mem _ (ih h)
    · simpa [hp] using h

lemma mem_stripList (l : List Char) (c : Char) (h : c ∈ stripList l) : c ∈ l := by
  unfold stripList at h
  rw [List.mem_reverse] at h
  have h1 : c ∈ (l.dropWhile isPySpace).reverse := mem_of_mem_dropWhile _ _ _ h
  rw [List.mem_reverse] at h1
  exact mem_of_mem_dropWhile _ _ _ h1

/-! Lemmas about joinSpace. -/

lemma joinSpace_cons_cons (w x : String) (r : List String) :
    joinSpace (w :: x :: r) = w ++ " " ++ joinSpace (x :: r) := rfl

lemma space_append_ne_empty (s : String) : " " ++ s ≠ "" := by
  intro h
  rw [← data_eq_nil_iff, String.data_append] at h
  exact absurd h (by simp)

lemma sep_append_ne_empty (a b : String) : a ++ " " ++ b ≠ "" := by
  intro h
  rw [← data_eq_nil_iff, String.data_append, String.data_append] at h
  rcases List.append_eq_nil.mp h with ⟨h1, _⟩
  rcases List.append_eq_nil.mp h1 with ⟨_, h2⟩
  exact absurd h2 (by decide)

lemma goodEdges_sep_append (a b : String) (ha : goodEdges a) (hb : goodEdges b)
    (na : a ≠ "") (nb : b ≠ "") : goodEdges (a ++ " " ++ b) := by
  have hda : a.data ≠ [] := fun h => na ((data_eq_nil_iff a).mp h)
  have hdb : b.data ≠ [] := fun h => nb ((data_eq_nil_iff b).mp h)
  constructor
  · rw [String.data_append, String.data_append]
    rw [List.head?_append_of_ne_nil _ (by simp [hda])]
    rw [List.head?_append_of_ne_nil _ hda]
    exact ha.1
  · rw [String.data_append]
    rw [List.getLast?_append_of_ne_nil _ hdb]
    exact hb.2

lemma goodWords_singleton (w : String) (h : w ≠ "" ∧ goodEdges w) : goodWords [w] := by
  intro u hu
  rcases List.mem_singleton.mp hu with rfl
  exact h

lemma goodWords_append_one (ws : List String) (w : String) (h : goodWords ws)
    (hw : w ≠ "" ∧ goodEdges w) : goodWords (ws ++ [w]) := by
  intro u hu
  rcases List.mem_append.mp hu with h1 | h1
  · exact h u h1
  · rcases List.mem_singleton.mp h1 with rfl
    exact hw

lemma joinSpace_good (ws : List String) (h : goodWords ws) (hne : ws ≠ []) :
    joinSpace ws ≠ "" ∧ goodEdges (joinSpace ws) := by
  induction ws with
  | nil => exact absurd rfl hne
  | cons w t ih =>
    cases t with
    | nil =>
      have hw := h w (List.mem_cons_self w [])
      exact ⟨hw.1, hw.2⟩
    | cons x r =>
      have hw := h w (List.mem_cons_self _ _)
      have ht := ih (fun u hu => h u (List.mem_cons_of_mem _ hu)) (by simp)
      rw [joinSpace_cons_cons]
      exact ⟨sep_append_ne_empty _ _, goodEdges_sep_append _ _ hw.2 ht.2 hw.1 ht.1⟩

lemma pyStrip_joinSpace (ws : List String) (h : goodWords ws) (hne : ws ≠ []) :
    pyStrip (joinSpace ws) = joinSpace ws :=
  pyStrip_eq_self _ (joinSpace_good ws h hne).2

lemma joinSpace_append_one (ws : List String) (w : String) (hne : ws ≠ []) :
    joinSpace (ws ++ [w]) = joinSpace ws ++ " " ++ w := by
  induction ws with
  | nil => exact absurd rfl hne
  | cons a t ih =>
    cases t with
    | nil => rfl
    | cons b r =>
      have h1 := ih (by simp)
      show a ++ " " ++ joinSpace ((b :: r) ++ [w]) =
        (a ++ " " ++ joinSpace (b :: r)) ++ " " ++ w
      rw [h1]
      simp only [← String.append_assoc]

/-! The loop invariant relating the accumulated line text to the current
chunk of kept words. -/

lemma inv_strip (chunk : List String) (lineText : String) (hg : goodWords chunk)
    (hne : chunk ≠ [])
    (hl : lineText = joinSpace chunk ∨ lineText = " " ++ joinSpace chunk) :
    lineText ≠ "" ∧ pyStrip lineText = joinSpace chunk := by
  rcases hl with rfl | rfl
  · exact ⟨(joinSpace_good _ hg hne).1, pyStrip_joinSpace _ hg hne⟩
  · exact ⟨space_append_ne_empty _,
      by rw [pyStrip_space_append]; exact pyStrip_joinSpace _ hg hne⟩

/-! Unfolding lemmas for buildAux, keptB and keptWords. -/

lemma buildAux_nil (cur : Int) (lt : String) (acc : List String) :
    buildAux cur lt acc [] = .ok (flushLine lt acc) := rfl

lemma buildAux_cons_none (cur : Int) (lt : String) (acc : List String)
    (w : OcrWord) (rest : List OcrWord) (h : pyConf w = none) :
    buildAux cur lt acc (w :: rest) = .error () := by
  unfold buildAux
  rw [h]

lemma buildAux_cons_skip (cur : Int) (lt : String) (acc : List String)
    (w : OcrWord) (rest : List OcrWord) (c : Int) (h : pyConf w = some c)
    (hskip : pyStrip w.text = "" ∨ c < 30) :
    buildAux cur lt acc (w :: rest) = buildAux cur lt acc rest := by
  conv_lhs => unfold buildAux
  rw [h]
  simp [hskip]

lemma buildAux_cons_newline (cur : Int) (lt : String) (acc : List String)
    (w : OcrWord) (rest : List OcrWord) (c : Int) (h : pyConf w = some c)
    (hskip : ¬(pyStrip w.text = "" ∨ c < 30)) (hn : w.line_num ≠ cur) :
    buildAux cur lt acc (w :: rest) =
      buildAux w.line_num (pyStrip w.text) (flushLine lt acc) rest := by
  conv_lhs => unfold buildAux
  rw [h]
  simp [hskip, hn]

lemma buildAux_cons_same (cur : Int) (lt : String) (acc : List String)
    (w : OcrWord) (rest : List OcrWord) (c : Int) (h : pyConf w = some c)
    (hskip : ¬(pyStrip w.text = "" ∨ c < 30)) (hn : w.line_num = cur) :
    buildAux cur lt acc (w :: rest) =
      buildAux cur (lt ++ " " ++ pyStrip w.text) acc rest := by
  conv_lhs => unfold buildAux
  rw [h]
  simp [hskip, hn]

lemma keptB_false (w : OcrWord) (c : Int) (hc : pyConf w = some c)
    (hskip : pyStrip w.text = "" ∨ c < 30) : keptB w = false := by
  unfold keptB
  rw [hc]
  simp [hskip]

lemma keptB_true (w : OcrWord) (c : Int) (hc : pyConf w = some c)
    (hskip : ¬(pyStrip w.text = "" ∨ c < 30)) : keptB w = true := by
  unfold keptB
  rw [hc]
  simp [hskip]

lemma keptWords_nil : keptWords [] = [] := rfl

lemma keptWords_cons_skip (w : OcrWord) (rest : List OcrWord) (h : keptB w = false) :
    keptWords (w :: rest) = keptWords rest := by
  unfold keptWords
  rw [List.filterMap_cons]
  simp [h]

lemma keptWords_cons_keep (w : OcrWord) (rest : List OcrWord) (h : keptB w = true) :
    keptWords (w :: rest) = (pyStrip w.text, w.line_num) :: keptWords rest := by
  unfold keptWords
  rw [List.filterMap_cons]
  simp [h]

lemma allConfParse_cons (w : OcrWord) (rest : List OcrWord) :
    allConfParse (w :: rest) = ((pyConf w).isSome && allConfParse rest) := by
  unfold allConfParse
  rw [List.all_cons]

lemma buildAux_error (ws : List OcrWord) (h : allConfParse ws = false) :
    ∀ (cur : Int) (lineText : String) (acc : List String),
      buildAux cur lineText acc ws = .error () := by
  induction ws with
  | nil => simp [allConfParse] at h
  | cons w rest ih =>
    intro cur lineText acc
    rw [allConfParse_cons] at h
    cases hcw : pyConf w with
    | none => exact buildAux_cons_none _ _ _ _ _ hcw
    | some c =>
      have hrest : allConfParse rest = false := by
        rw [hcw] at h
        simpa using h
      by_cases hskip : pyStrip w.text = "" ∨ c < 30
      · rw [buildAux_cons_skip _ _ _ _ _ _ hcw hskip]
        exact ih hrest _ _ _
      · by_cases hn : w.line_num = cur
        · rw [buildAux_cons_same _ _ _ _ _ _ hcw hskip hn]
          exact ih hrest _ _ _
        · rw [buildAux_cons_newline _ _ _ _ _ _ hcw hskip hn]
          exact ih hrest _ _ _

/-! Unfolding lemmas for the spec-side grouping. -/

lemma specGA_nil (cur : Int) (chunk : List String) : specGA cur chunk [] = [chunk] := rfl

lemma specGA_cons_same (cur : Int) (chunk : List String) (w : String)
    (ps : List (String × Int)) :
    specGA cur chunk ((w, cur) :: ps) = specGA cur (chunk ++ [w]) ps := by
  conv_lhs => unfold specGA
  simp

lemma specGA_cons_ne (cur n : Int) (chunk : List String) (w : String)
    (ps : List (String × Int)) (h : n ≠ cur) :
    specGA cur chunk ((w, n) :: ps) = chunk :: specGA n [w] ps := by
  conv_lhs => unfold specGA
  simp [h]

lemma specGroups_cons (w : String) (n : Int) (ps : List (String × Int)) :
    specGroups ((w, n) :: ps) = specGA n [w] ps := rfl

lemma specResume_nil_chunk (cur : Int) (ps : List (String × Int)) :
    specResume cur [] ps = specGroups ps := rfl

lemma specResume_ne_nil (cur : Int) (chunk : List String) (ps : List (String × Int))
    (h : chunk ≠ []) : specResume cur chunk ps = specGA cur chunk ps := by
  cases chunk with
  | nil => exact absurd rfl h
  | cons a t => rfl

/-! The main correspondence between the source loop and the spec-side
grouping, by induction along the word list, threading InvState. -/

lemma buildAux_correct (ws : List OcrWord) : ∀ (cur : Int) (lineText : String)
    (chunk : List String) (acc : List String),
    InvState lineText chunk → allConfParse ws = true →
    buildAux cur lineText acc ws =
      .ok (acc ++ (specResume cur chunk (keptWords ws)).map joinSpace) := by
  induction ws with
  | nil =>
    intro cur lineText chunk acc hInv _
    rw [buildAux_nil, keptWords_nil]
    rcases hInv with ⟨hc, hl⟩ | ⟨hc, hg, hl⟩
    · subst hc; subst hl
      simp [flushLine, specResume, specGroups]
    · obtain ⟨hne, hstrip⟩ := inv_strip chunk lineText hg hc hl
      rw [specResume_ne_nil _ _ _ hc, specGA_nil]
      simp [flushLine, hne, hstrip]
  | cons w rest ih =>
    intro cur lineText chunk acc hInv hParse
    rw [allConfParse_cons] at hParse
    cases hcw : pyConf w with
    | none => rw [hcw] at hParse; simp at hParse
    | some c =>
      have hrest : allConfParse rest = true := by
        rw [hcw] at hParse; simpa using hParse
      by_cases hskip : pyStrip w.text = "" ∨ c < 30
      · rw [buildAux_cons_skip _ _ _ _ _ _ hcw hskip,
          keptWords_cons_skip _ _ (keptB_false _ _ hcw hskip)]
        exact ih _ _ _ _ hInv hrest
      · have hkeep := keptB_true _ _ hcw hskip
        have hwne : pyStrip w.text ≠ "" := fun h => hskip (Or.inl h)
        have hgood : pyStrip w.text ≠ "" ∧ goodEdges (pyStrip w.text) :=
          ⟨hwne, goodEdges_pyStrip _⟩
        rw [keptWords_cons_keep _ _ hkeep]
        by_cases hn : w.line_num = cur
        · rw [buildAux_cons_same _ _ _ _ _ _ hcw hskip hn]
          rcases hInv with ⟨hc0, hl0⟩ | ⟨hc0, hg, hl⟩
          · subst hc0; subst hl0
            have hInv2 : InvState ("" ++ " " ++ pyStrip w.text) [pyStrip w.text] :=
              Or.inr ⟨by simp, goodWords_singleton _ hgood, Or.inr rfl⟩
            rw [ih _ _ _ _ hInv2 hrest]
            rw [specResume_nil_chunk, specGroups_cons, hn]
            rw [specResume_ne_nil cur [pyStrip w.text] _ (by simp)]
          · obtain ⟨c0, cs, hchunk⟩ := List.exists_cons_of_ne_nil hc0
            subst hchunk
            have hInv2 : InvState (lineText ++ " " ++ pyStrip w.text)
                ((c0 :: cs) ++ [pyStrip w.text]) := by
              right
              refine ⟨by simp, goodWords_append_one _ _ hg hgood, ?_⟩
              rcases hl with rfl | rfl
              · left
                rw [joinSpace_append_one _ _ (by simp)]
              · right
                rw [joinSpace_append_one _ _ (by simp)]
                simp only [← String.append_assoc]
            rw [ih _ _ _ _ hInv2 hrest]
            rw [hn]
            rw [specResume_ne_nil cur ((c0 :: cs) ++ [pyStrip w.text]) _ (by simp)]
            rw [specResume_ne_nil cur (c0 :: cs) _ (by simp)]
            rw [specGA_cons_same]
        · rw [buildAux_cons_newline _ _ _ _ _ _ hcw hskip hn]
          have hInv2 : InvState (pyStrip w.text) [pyStrip w.text] :=
            Or.inr ⟨by simp, goodWords_singleton _ hgood, Or.inl rfl⟩
          rw [ih _ _ _ _ hInv2 hrest]
          rcases hInv with ⟨hc0, hl0⟩ | ⟨hc0, hg, hl⟩
          · subst hc0; subst hl0
            rw [specResume_nil_chunk, specGroups_cons]
            rw [specResume_ne_nil w.line_num [pyStrip w.text] _ (by simp)]
            simp [flushLine]
          · obtain ⟨c0, cs, hchunk⟩ := List.exists_cons_of_ne_nil hc0
            subst hchunk
            obtain ⟨hne, hstrip⟩ := inv_strip _ _ hg (by simp) hl
            rw [specResume_ne_nil cur (c0 :: cs) _ (by simp)]
            rw [specGA_cons_ne _ _ _ _ _ hn]
            rw [specResume_ne_nil w.line_num [pyStrip w.text] _ (by simp)]
            simp [flushLine, hne, hstrip]

/-- A discarded word anywhere in the data leaves the loop result unchanged. -/
lemma buildAux_middle_skip (pre : List OcrWord) (w : OcrWord) (post : List OcrWord)
    (c : Int) (hc : pyConf w = some c) (hk : keptB w = false) :
    ∀ (cur : Int) (lineText : String) (acc : List String),
      buildAux cur lineText acc (pre ++ w :: post) =
        buildAux cur lineText acc (pre ++ post) := by
  induction pre with
  | nil =>
    intro cur lineText acc
    have hskip : pyStrip w.text = "" ∨ c < 30 := by
      by_contra hor
      rw [keptB_true _ _ hc hor] at hk
      simp at hk
    exact buildAux_cons_skip _ _ _ _ _ _ hc hskip
  | cons p pre ih =>
    intro cur lineText acc
    show buildAux cur lineText acc (p :: (pre ++ w :: post)) =
      buildAux cur lineText acc (p :: (pre ++ post))
    cases hcp : pyConf p with
    | none =>
      rw [buildAux_cons_none _ _ _ _ _ hcp, buildAux_cons_none _ _ _ _ _ hcp]
    | some cp =>
      by_cases hskip : pyStrip p.text = "" ∨ cp < 30
      · rw [buildAux_cons_skip _ _ _ _ _ _ hcp hskip,
          buildAux_cons_skip _ _ _ _ _ _ hcp hskip]
        exact ih _ _ _
      · by_cases hnp : p.line_num = cur
        · rw [buildAux_cons_same _ _ _ _ _ _ hcp hskip hnp,
            buildAux_cons_same _ _ _ _ _ _ hcp hskip hnp]
          exact ih _ _ _
        · rw [buildAux_cons_newline _ _ _ _ _ _ hcp hskip hnp,
            buildAux_cons_newline _ _ _ _ _ _ hcp hskip hnp]
          exact ih _ _ _

/-- C1: for every OCR data dict whose loop completes, the assembled lines
are the sequential grouping of the kept words: walking in index order, a
kept word starts a new line exactly when its line_num differs from the
line_num of the previously kept word, and words of one line are joined in
index order by single spaces. -/
theorem ocr_lines_sequential_grouping (ws : List OcrWord) (ls : List String)
    (h : buildLines ws = .ok ls) : ls = specLines (keptWords ws) := by
  cases hp : allConfParse ws with
  | true =>
    have h2 := buildAux_correct ws (-1) "" [] [] (Or.inl ⟨rfl, rfl⟩) hp
    rw [buildLines] at h
    rw [h2] at h
    have h3 := Except.ok.inj h
    rw [← h3]
    simp [specLines, specResume_nil_chunk]
  | false =>
    rw [buildLines, buildAux_error ws hp] at h
    exact absurd h (by simp)

/-- Witness for C1 at concrete OCR data. -/
theorem ocr_lines_sequential_grouping_witness :
    ["Hello world", "next"] =
      specLines (keptWords
        [⟨"Hello", "90", 1⟩, ⟨"world", "85", 1⟩, ⟨"next", "70", 2⟩]) :=
  ocr_lines_sequential_grouping _ _ (by rfl)

/-- C2: with a confidence string of -1 read as 0, a word is discarded
exactly when its stripped text is empty or its confidence is below 30;
a discarded word leaves the assembled output unchanged wherever it sits,
and every other word contributes its (stripped text, line_num) to the
kept sequence in index order. -/
theorem word_discard_characterization (w : OcrWord) (c : Int)
    (hc : pyConf w = some c) :
    (keptB w = false ↔ (pyStrip w.text = "" ∨ c < 30)) ∧
    (keptB w = false →
      ∀ (pre post : List OcrWord),
        buildLines (pre ++ w :: post) = buildLines (pre ++ post)) ∧
    (keptB w = true →
      ∀ (pre post : List OcrWord),
        keptWords (pre ++ w :: post) =
          keptWords pre ++ (pyStrip w.text, w.line_num) :: keptWords post) := by
  refine ⟨⟨?_, ?_⟩, ?_, ?_⟩
  · intro hk
    by_contra hor
    rw [keptB_true _ _ hc hor] at hk
    simp at hk
  · intro hor
    exact keptB_false _ _ hc hor
  · intro hk pre post
    exact buildAux_middle_skip pre w post c hc hk _ _ _
  · intro hk pre post
    simp [keptWords, List.filterMap_append, List.filterMap_cons, hk]

/-- Witness for C2: a word whose confidence string is -1 is discarded and
contributes nothing. -/
theorem word_discard_characterization_witness :
    buildLines [⟨"ok", "90", 1⟩, ⟨"Hi", "-1", 2⟩] = buildLines [⟨"ok", "90", 1⟩] :=
  ((word_discard_characterization ⟨"Hi", "-1", 2⟩ 0 (by rfl)).2.1 (by rfl))
    [⟨"ok", "90", 1⟩] []

/-! The junk filter and the success-path inversion of the handler. -/

lemma mem_cleanLines (ls : List String) (s : String) (hs : s ∈ cleanLines ls) :
    s.data.all isPrintableAscii = true ∧ 2 < (pyStrip s).length ∧
      onlyPunct s = false := by
  unfold cleanLines at hs
  rw [List.mem_filterMap] at hs
  obtain ⟨line, _, hline⟩ := hs
  simp only at hline
  by_cases hcond : 2 < (pyStrip (cleanAscii line)).length ∧
      onlyPunct (pyStrip (cleanAscii line)) = false
  · rw [if_pos hcond] at hline
    have hs2 : pyStrip (cleanAscii line) = s := Option.some.inj hline
    subst hs2
    refine ⟨?_, ?_, hcond.2⟩
    · rw [List.all_eq_true]
      intro c hc
      have h1 : c ∈ (cleanAscii line).data := mem_stripList _ _ hc
      have h2 : c ∈ line.data.filter isPrintableAscii := h1
      exact (List.mem_filter.mp h2).2
    · rw [pyStrip_idem]
      exact hcond.1
  · rw [if_neg hcond] at hline
    exact absurd hline (by simp)

lemma extract_text_success_inv (env : OcrEnv) (body : OcrSuccess) (eff : Effects)
    (h : extract_text env = (.success body, eff)) :
    ∃ ws ls,
      (env.primaryOcr = some ws ∨
        (env.primaryOcr = none ∧ env.fallbackOcr = some ws)) ∧
      buildLines ws = .ok ls ∧ body = successBody (cleanLines ls) := by
  unfold extract_text at h
  split_ifs at h
  all_goals try exact absurd h (by simp)
  cases hp : env.primaryOcr with
  | some ws =>
    rw [hp] at h
    simp only [finishOcr] at h
    cases hb : buildLines ws with
    | error e => rw [hb] at h; exact absurd h (by simp)
    | ok ls =>
      rw [hb] at h
      refine ⟨ws, ls, Or.inl rfl, hb, ?_⟩
      have := congrArg Prod.fst h
      simp only at this
      exact (OcrResponse.success.inj this).symm
  | none =>
    rw [hp] at h
    cases hf : env.fallbackOcr with
    | none => rw [hf] at h; exact absurd h (by simp)
    | some ws =>
      rw [hf] at h
      simp only [finishOcr] at h
      cases hb : buildLines ws with
      | error e => rw [hb] at h; exact absurd h (by simp)
      | ok ls =>
        rw [hb] at h
        refine ⟨ws, ls, Or.inr ⟨rfl, rfl⟩, hb, ?_⟩
        have := congrArg Prod.fst h
        simp only at this
        exact (OcrResponse.success.inj this).symm

/-- C3: every string in the lines array of a successful /ocr response is
printable ASCII only, longer than 2 after stripping surrounding
whitespace, and not composed solely of punctuation. -/
theorem success_lines_clean (env : OcrEnv) (body : OcrSuccess) (eff : Effects)
    (s : String) (h : extract_text env = (.success body, eff))
    (hs : s ∈ body.lines) :
    s.data.all isPrintableAscii = true ∧ 2 < (pyStrip s).length ∧
      onlyPunct s = false := by
  obtain ⟨ws, ls, _, _, rfl⟩ := extract_text_success_inv env body eff h
  exact mem_cleanLines ls s hs

/-- Witness for C3 at a concrete successful request. -/
theorem success_lines_clean_witness :
    ("Hello world" : String).data.all isPrintableAscii = true ∧
    2 < (pyStrip "Hello world").length ∧ onlyPunct "Hello world" = false :=
  success_lines_clean envHappy (successBody ["Hello world"])
    { ocrCalls := 1, savedFile := true, removedFile := true } "Hello world"
    (by decide) (by decide)

/-- C5: every successful /ocr response is the JSON object with fields
lines, total_lines, status and message, where status is success,
total_lines is the length of lines, and message reports that length. -/
theorem success_response_fields (env : OcrEnv) (body : OcrSuccess) (eff : Effects)
    (h : extract_text env = (.success body, eff)) :
    body.status = "success" ∧
    body.total_lines = body.lines.length ∧
    body.message =
      "Successfully extracted " ++ toString body.lines.length ++ " lines of text" := by
  obtain ⟨ws, ls, _, _, rfl⟩ := extract_text_success_inv env body eff h
  exact ⟨rfl, rfl, rfl⟩

/-- Witness for C5 at a concrete successful request. -/
theorem success_response_fields_witness :
    (successBody ["Hello world"]).status = "success" ∧
    (successBody ["Hello world"]).total_lines =
      (successBody ["Hello world"]).lines.length ∧
    (successBody ["Hello world"]).message =
      "Successfully extracted " ++
        toString (successBody ["Hello world"]).lines.length ++ " lines of text" :=
  success_response_fields envHappy (successBody ["Hello world"])
    { ocrCalls := 1, savedFile := true, removedFile := true } (by decide)

/-- C9: in every successful /ocr response, total_lines equals the length
of the lines array. -/
theorem total_lines_matches (env : OcrEnv) (body : OcrSuccess) (eff : Effects)
    (h : extract_text env = (.success body, eff)) :
    body.total_lines = body.lines.length := by
  obtain ⟨ws, ls, _, _, rfl⟩ := extract_text_success_inv env body eff h
  rfl

/-- Witness for C9 at a concrete successful request. -/
theorem total_lines_matches_witness :
    (successBody ["Hello world"]).total_lines =
      (successBody ["Hello world"]).lines.length :=
  total_lines_matches envHappy (successBody ["Hello world"])
    { ocrCalls := 1, savedFile := true, removedFile := true } (by decide)

/-! The OCR invocation count (C4). -/

/-- C4 counterexample: a request rejected at the extension check invokes
the OCR engine zero times, not exactly once. -/
theorem ocr_single_call_counterexample :
    (extract_text ⟨true, true, "doc.txt", true, true, some [], none⟩).2.ocrCalls = 0 ∧
    (extract_text ⟨true, true, "doc.txt", true, true, some [], none⟩).2.ocrCalls ≠ 1 := by
  decide

/-- C4 amended: a request that reaches the OCR stage invokes the engine
exactly once when the first invocation succeeds and exactly twice (the
second being the simpler-configuration fallback) when it raises; a request
rejected by an earlier check invokes it zero times. -/
theorem ocr_call_count (env : OcrEnv) :
    (reachesOcr env = true →
      (extract_text env).2.ocrCalls = if env.primaryOcr.isSome then 1 else 2) ∧
    (reachesOcr env = false → (extract_text env).2.ocrCalls = 0) := by
  constructor
  · intro h
    unfold reachesOcr at h
    simp only [Bool.and_eq_true, bne_iff_ne, ne_eq] at h
    obtain ⟨⟨⟨⟨⟨h1, h2⟩, h3⟩, h4⟩, h5⟩, h6⟩ := h
    unfold extract_text
    rw [if_neg (by simp [h1]), if_neg (by simp [h2]), if_neg h3,
      if_neg (by simp [h4]), if_neg (by simp [h5]), if_neg (by simp [h6])]
    cases hp : env.primaryOcr with
    | some ws =>
      simp only [Option.isSome_some, if_true]
      unfold finishOcr
      cases buildLines ws <;> rfl
    | none =>
      simp only [Option.isSome_none, Bool.false_eq_true, if_false]
      cases hf : env.fallbackOcr with
      | none => rfl
      | some ws =>
        show (finishOcr ws 2).2.ocrCalls = 2
        unfold finishOcr
        cases buildLines ws <;> rfl
  · intro h
    unfold extract_text
    by_cases h1 : env.tesseractOk = false
    · rw [if_pos h1]; rfl
    rw [if_neg h1]
    by_cases h2 : env.hasFilePart = false
    · rw [if_pos h2]; rfl
    rw [if_neg h2]
    by_cases h3 : env.filename = ""
    · rw [if_pos h3]; rfl
    rw [if_neg h3]
    by_cases h4 : allowed_file env.filename = false
    · rw [if_pos h4]; rfl
    rw [if_neg h4]
    by_cases h5 : env.saveOk = false
    · rw [if_pos h5]
    rw [if_neg h5]
    by_cases h6 : env.imageOk = false
    · rw [if_pos h6]
    rw [if_neg h6]
    exfalso
    rw [Bool.not_eq_false] at h1 h2 h4 h5 h6
    rw [reachesOcr] at h
    simp [h1, h2, h3, h4, h5, h6] at h

/-- Witness for C4: one call on a successful request, none on a rejected
one. -/
theorem ocr_call_count_witness :
    (extract_text envHappy).2.ocrCalls = 1 ∧
    (extract_text ⟨true, false, "a.png", true, true, some [], none⟩).2.ocrCalls = 0 := by
  constructor
  · have h := (ocr_call_count envHappy).1 (by decide)
    simpa using h
  · exact (ocr_call_count _).2 (by decide)

/-! Rejection paths (C6 and C8). -/

/-- C6 counterexample: with Tesseract unavailable, a request whose
filename has a disallowed extension is answered HTTP 500, not 400, so the
extension check is not what answers it. -/
theorem invalid_extension_counterexample :
    allowed_file "doc.txt" = false ∧
    respStatus (extract_text ⟨false, true, "doc.txt", true, true, some [], none⟩).1 = 500 ∧
    respStatus (extract_text ⟨false, true, "doc.txt", true, true, some [], none⟩).1 ≠ 400 ∧
    (extract_text ⟨false, true, "doc.txt", true, true, some [], none⟩).2.savedFile = false ∧
    (extract_text ⟨false, true, "doc.txt", true, true, some [], none⟩).2.ocrCalls = 0 := by
  decide

/-- C6 amended: provided the Tesseract availability check passes and a
file part is present, a request whose filename fails allowed_file is
answered HTTP 400 with a JSON error body, before any file save and before
any OCR invocation. -/
theorem invalid_extension_rejected (env : OcrEnv)
    (h1 : env.tesseractOk = true) (h2 : env.hasFilePart = true)
    (h4 : allowed_file env.filename = false) :
    (∃ m, (extract_text env).1 = .error 400 m) ∧
    (extract_text env).2.savedFile = false ∧
    (extract_text env).2.ocrCalls = 0 := by
  unfold extract_text
  rw [if_neg (by simp [h1])]
  rw [if_neg (by simp [h2])]
  by_cases h3 : env.filename = ""
  · rw [if_pos h3]
    exact ⟨⟨"No file selected", rfl⟩, rfl, rfl⟩
  · rw [if_neg h3, if_pos h4]
    exact ⟨⟨_, rfl⟩, rfl, rfl⟩

/-- Witness for C6 (amended) at a concrete request. -/
theorem invalid_extension_rejected_witness :
    (∃ m, (extract_text ⟨true, true, "doc.txt", true, true, some [], none⟩).1 =
      .error 400 m) ∧
    (extract_text ⟨true, true, "doc.txt", true, true, some [], none⟩).2.savedFile = false ∧
    (extract_text ⟨true, true, "doc.txt", true, true, some [], none⟩).2.ocrCalls = 0 :=
  invalid_extension_rejected _ (by decide) (by decide) (by decide)

/-- C8: a request whose saved upload fails image decoding is answered
HTTP 400 with the invalid-image error body, the saved file is removed,
and the OCR engine is never invoked. -/
theorem undecodable_image_rejected (env : OcrEnv)
    (h1 : env.tesseractOk = true) (h2 : env.hasFilePart = true)
    (h3 : env.filename ≠ "") (h4 : allowed_file env.filename = true)
    (h5 : env.saveOk = true) (h6 : env.imageOk = false) :
    (extract_text env).1 = .error 400 "Invalid image file or corrupted" ∧
    (extract_text env).2.savedFile = true ∧
    (extract_text env).2.removedFile = true ∧
    (extract_text env).2.ocrCalls = 0 := by
  unfold extract_text
  rw [if_neg (by simp [h1]), if_neg (by simp [h2]), if_neg h3,
    if_neg (by simp [h4]), if_neg (by simp [h5]), if_pos h6]
  exact ⟨rfl, rfl, rfl, rfl⟩

/-- Witness for C8 at a concrete request. -/
theorem undecodable_image_rejected_witness :
    (extract_text ⟨true, true, "scan.jpg", true, false, some [], none⟩).1 =
      .error 400 "Invalid image file or corrupted" ∧
    (extract_text ⟨true, true, "scan.jpg", true, false, some [], none⟩).2.savedFile = true ∧
    (extract_text ⟨true, true, "scan.jpg", true, false, some [], none⟩).2.removedFile = true ∧
    (extract_text ⟨true, true, "scan.jpg", true, false, some [], none⟩).2.ocrCalls = 0 :=
  undecodable_image_rejected _ (by decide) (by decide) (by decide) (by decide)
    (by decide) (by decide)

/-! The /health endpoint (C7). -/

/-- C7: /health answers 200 with status healthy or partial according to
Tesseract availability when no exception is raised, and 500 with status
unhealthy when one is. -/
theorem health_status (e : HealthEnv) :
    (e.raisesExc = false →
      (health e).code = 200 ∧
      (health e).status = (if e.tesseractAvailable then "healthy" else "partial")) ∧
    (e.raisesExc = true →
      (health e).code = 500 ∧ (health e).status = "unhealthy") := by
  constructor <;> intro h <;> simp [health, h]

/-- Witness for C7 at concrete environments. -/
theorem health_status_witness :
    (health ⟨false, true⟩).status = "healthy" ∧ (health ⟨true, false⟩).code = 500 :=
  ⟨by simpa using ((health_status ⟨false, true⟩).1 rfl).2,
   ((health_status ⟨true, false⟩).2 rfl).1⟩

/-! allowed_file (C10). -/

lemma takeWhile_all_append (p : Char → Bool) (l1 : List Char) (a : Char)
    (l2 : List Char) (h1 : ∀ c ∈ l1, p c = true) (h2 : p a = false) :
    (l1 ++ a :: l2).takeWhile p = l1 := by
  induction l1 with
  | nil => simp [List.takeWhile_cons, h2]
  | cons b t ih =>
    have hb := h1 b (List.mem_cons_self _ _)
    simp [List.takeWhile_cons, hb, ih (fun c hc => h1 c (List.mem_cons_of_mem _ hc))]

lemma extAfterLastDot_append (s e : String) (he : hasDot e = false) :
    extAfterLastDot (s ++ "." ++ e) = e := by
  have hnd : ∀ c ∈ e.data.reverse, (decide (c ≠ '.')) = true := by
    intro c hc
    rw [List.mem_reverse] at hc
    apply decide_eq_true
    intro hdot
    subst hdot
    rw [hasDot] at he
    exact absurd hc (of_decide_eq_false he)
  show (⟨((s ++ "." ++ e).data.reverse.takeWhile (fun c => c ≠ '.')).reverse⟩ : String) = e
  rw [String.data_append, String.data_append]
  rw [List.reverse_append, List.reverse_append]
  have hshape : (".".data).reverse ++ s.data.reverse = '.' :: s.data.reverse := rfl
  rw [hshape]
  rw [takeWhile_all_append _ _ _ _ hnd (by decide)]
  rw [List.reverse_reverse]

lemma hasDot_append_dot (s e : String) : hasDot (s ++ "." ++ e) = true := by
  rw [hasDot]
  rw [decide_eq_true_eq]
  rw [String.data_append, String.data_append]
  simp

/-- C10: allowed_file rejects every dotless filename, and its acceptance
is case-insensitive in the extension: filenames sharing a stem and
case-equivalent dotless extensions are accepted or rejected together. -/
theorem allowed_file_dot_and_case :
    (∀ f : String, hasDot f = false → allowed_file f = false) ∧
    (∀ s e1 e2 : String, hasDot e1 = false → hasDot e2 = false →
      pyLower e1 = pyLower e2 →
      allowed_file (s ++ "." ++ e1) = allowed_file (s ++ "." ++ e2)) := by
  constructor
  · intro f hf
    unfold allowed_file
    rw [hf]
    rfl
  · intro s e1 e2 h1 h2 hlow
    unfold allowed_file
    rw [extAfterLastDot_append s e1 h1, extAfterLastDot_append s e2 h2]
    rw [hasDot_append_dot, hasDot_append_dot, hlow]

/-- Witness for C10 at concrete filenames. -/
theorem allowed_file_dot_and_case_witness :
    allowed_file "noext" = false ∧
    allowed_file ("photo" ++ "." ++ "PNG") = allowed_file ("photo" ++ "." ++ "png") :=
  ⟨allowed_file_dot_and_case.1 "noext" (by decide),
   allowed_file_dot_and_case.2 "photo" "PNG" "png" (by decide) (by decide) (by decide)⟩

end Scan2PDF
